import Mathlib

/-!
Verification of the Signal & Forecast Engine (stock_app).

Shallow embedding of `src/stock_app.py` in Lean 4.  Prices are modelled as
rationals (`ℚ`).  A pandas value that may be NaN (an indicator inside its
warm-up window) is modelled as `Option ℚ`, with `none` standing for NaN;
IEEE comparison with NaN is false, which the `fgt`/`fgtC` helpers encode.
-/

namespace StockApp

/-- Outcome of the external `yf.download` call: either the fetch raised an
exception, or it produced a (possibly empty) frame of closing prices. -/
inductive FetchOutcome where
  | raised : FetchOutcome
  | frame : List ℚ → FetchOutcome
deriving DecidableEq

/-- Embedding of `load_data` (stock_app.py lines 21-29): a raised download
returns `None`; an empty frame returns `None`; otherwise the frame is
returned unchanged. -/
def load_data : FetchOutcome → Option (List ℚ)
  | .raised => none
  | .frame rows => if rows.isEmpty then none else some rows

/-- Embedding of the caller guard at line 71: the error state is rendered
exactly when `df is None or df.empty`. -/
def renders_error : Option (List ℚ) → Bool
  | none => true
  | some rows => rows.isEmpty

/-- The value `df['Close'].iloc[-1]` on a non-empty frame. -/
def last_close (closes : List ℚ) : ℚ := closes.getD (closes.length - 1) 0

/-- Rolling mean of window `w` ending at index `i`, the semantics of
`ta.sma(close, length=w)` at row `i` (line 82): NaN (`none`) while the
window is not yet full. -/
def sma (closes : List ℚ) (w : ℕ) (i : ℕ) : Option ℚ :=
  if w ≤ i + 1 ∧ i < closes.length then
    some ((∑ j in Finset.Icc (i + 1 - w) i, closes.getD j 0) / (w : ℚ))
  else none

/-- Float comparison `c > m` where `m` may be NaN: any comparison with NaN
is false. -/
def fgt (c : ℚ) (m : Option ℚ) : Bool :=
  match m with
  | none => false
  | some v => decide (v < c)

/-- Float comparison `x > t` where `x` may be NaN. -/
def fgtC (x : Option ℚ) (t : ℚ) : Bool :=
  match x with
  | none => false
  | some v => decide (t < v)

/-- The discrete trading postures.  The source emits only the first two;
the remaining constructors are the extra vocabulary of the specification's
Signal Evaluator. -/
inductive Signal where
  | bullish : Signal
  | bearish : Signal
  | overbought : Signal
  | oversupported : Signal
  | neutral : Signal
deriving DecidableEq

/-- Embedding of the tab1 signal block (lines 94-97): `bullish`
(趨勢偏多) when `last_close > current_ma20`, else `bearish` (趨勢偏空).
`ma20` may be NaN, in which case the comparison is false. -/
def tab1_signal (last : ℚ) (ma20 : Option ℚ) : Signal :=
  if fgt last ma20 then .bullish else .bearish

/-- The tab1 signal as evaluated on a whole close series:
`current_ma20 = df['MA20'].iloc[-1]` (line 86) feeding the block. -/
def tab1_signal_of (closes : List ℚ) : Signal :=
  tab1_signal (last_close closes) (sma closes 20 (closes.length - 1))

/-- Embedding of line 110: `flex_value = 0.5 if auto_tune else 0.05`. -/
def flex_value (auto_tune : Bool) : ℚ :=
  if auto_tune then 0.5 else 0.05

/-- The flexibility actually handed to `run_prophet_model` at line 111.
The close series is in scope at the call site but the selection expression
does not read it. -/
def tab2_prophet_flex (auto_tune : Bool) (_df : List ℚ) : ℚ :=
  flex_value auto_tune

/-- The expression `error = abs(actual - predicted) / actual * 100`
(line 146). -/
def error_pct (predicted actual : ℚ) : ℚ :=
  |actual - predicted| / actual * 100

/-- The recalibration warning at line 152: fires exactly when
`error > 5`. -/
def recal_triggered (predicted actual : ℚ) : Bool :=
  decide (error_pct predicted actual > 5)

/-- Embedding of line 145: the calibration baseline is
`df['MA20'].iloc[-2]` when the frame has more than one row, else the last
close itself.  The moving average may be NaN. -/
def tab3_predicted (closes : List ℚ) : Option ℚ :=
  if 1 < closes.length then sma closes 20 (closes.length - 2)
  else some (last_close closes)

/-- The tab3 error value (line 146); NaN when the baseline is NaN. -/
def tab3_error (closes : List ℚ) : Option ℚ :=
  (tab3_predicted closes).map (fun p => error_pct p (last_close closes))

/-- The tab3 recalibration flag (line 152); a NaN error never fires. -/
def tab3_trigger (closes : List ℚ) : Bool :=
  fgtC (tab3_error closes) 5

/-! ## The backup forecast model (lines 48-58)

`run_backup_model` builds `x = 0..n-1`, fits `np.polyfit(x, y, 1)` — the
ordinary least-squares line — and evaluates it at `n, …, n+periods-1`.
The degree-1 least-squares coefficients are given by the closed normal-
equation form; that this pair minimises the sum of squared residuals is
proved below (`run_backup_model_ols`). -/

/-- The sum of the indices `0..n-1` as a rational. -/
def sumIdx (n : ℕ) : ℚ := ∑ j in Finset.range n, (j : ℚ)

/-- The sum of the squared indices over `0..n-1` as a rational. -/
def sumIdxSq (n : ℕ) : ℚ := ∑ j in Finset.range n, (j : ℚ) ^ 2

/-- The sum of the closes. -/
def sumY (y : List ℚ) : ℚ := ∑ j in Finset.range y.length, y.getD j 0

/-- The sum of index-weighted closes `∑ j · y_j`. -/
def sumXY (y : List ℚ) : ℚ :=
  ∑ j in Finset.range y.length, (j : ℚ) * y.getD j 0

/-- Least-squares slope of the degree-1 fit of `y` against `x = 0..n-1`,
the first coefficient returned by `np.polyfit(x, y, 1)`. -/
def fitSlope (y : List ℚ) : ℚ :=
  ((y.length : ℚ) * sumXY y - sumIdx y.length * sumY y) /
    ((y.length : ℚ) * sumIdxSq y.length - (sumIdx y.length) ^ 2)

/-- Least-squares intercept of the degree-1 fit, the second coefficient
returned by `np.polyfit(x, y, 1)`. -/
def fitIntercept (y : List ℚ) : ℚ :=
  (sumY y - fitSlope y * sumIdx y.length) / (y.length : ℚ)

/-- The pair `np.polyfit(x, y, 1)` with `x = 0..n-1`: the least-squares
slope and intercept in closed form. -/
def polyfit1 (y : List ℚ) : ℚ × ℚ := (fitSlope y, fitIntercept y)

/-- Embedding of `run_backup_model` (lines 48-58): fit the least-squares
line and evaluate it at `future_x = n, …, n + periods - 1`. -/
def run_backup_model (y : List ℚ) (periods : ℕ := 7) : List ℚ :=
  (List.range periods).map
    (fun i => (polyfit1 y).1 * ((y.length + i : ℕ) : ℚ) + (polyfit1 y).2)

/-- Sum of squared residuals of the line `a·x + b` over the index/close
vectors used by the fit. -/
def sse (y : List ℚ) (a b : ℚ) : ℚ :=
  ∑ j in Finset.range y.length, (y.getD j 0 - (a * (j : ℚ) + b)) ^ 2

/-! ## Spec-modelled band half-width

src/ computes no Bollinger band and no trailing standard deviation; the
following two definitions are modelled from the spec for claim C6. -/

/-- Mean of a list of closes. -/
def listMean (l : List ℚ) : ℚ :=
  (∑ j in Finset.range l.length, l.getD j 0) / (l.length : ℚ)

/-- Modelled from the spec: the sample variance of a window of closes
(§4.2 step 5 describes `band_half_width` as the sample standard deviation
of the trailing 20 observations; no such code exists under src/). -/
def sampleVar (l : List ℚ) : ℚ :=
  (∑ j in Finset.range l.length, (l.getD j 0 - listMean l) ^ 2) /
    ((l.length : ℚ) - 1)

/-- Modelled from the spec: `s` is the band half-width of `closes`, i.e.
the non-negative square root of the sample variance of the trailing 20
observations (§4.2 step 5). -/
def band_half_width_is (closes : List ℚ) (s : ℚ) : Prop :=
  0 ≤ s ∧ s ^ 2 = sampleVar (closes.drop (closes.length - 20))

/-! ## Least-squares facts about the backup model -/

lemma sumIdx_closed (n : ℕ) : sumIdx n = (n : ℚ) * ((n : ℚ) - 1) / 2 := by
  induction n with
  | zero => simp [sumIdx]
  | succ m ih =>
    rw [sumIdx, Finset.sum_range_succ, ← sumIdx, ih]
    push_cast
    ring

lemma sumIdxSq_closed (n : ℕ) :
    sumIdxSq n = (n : ℚ) * ((n : ℚ) - 1) * (2 * (n : ℚ) - 1) / 6 := by
  induction n with
  | zero => simp [sumIdxSq]
  | succ m ih =>
    rw [sumIdxSq, Finset.sum_range_succ, ← sumIdxSq, ih]
    push_cast
    ring

lemma det_closed (n : ℕ) :
    (n : ℚ) * sumIdxSq n - (sumIdx n) ^ 2 =
      (n : ℚ) ^ 2 * ((n : ℚ) ^ 2 - 1) / 12 := by
  rw [sumIdx_closed, sumIdxSq_closed]
  ring

lemma det_pos (n : ℕ) (hn : 2 ≤ n) :
    0 < (n : ℚ) * sumIdxSq n - (sumIdx n) ^ 2 := by
  rw [det_closed]
  have h2 : (2 : ℚ) ≤ (n : ℚ) := by exact_mod_cast hn
  apply div_pos
  · apply mul_pos
    · nlinarith
    · nlinarith
  · norm_num

lemma slope_mul_det (y : List ℚ) (h : y ≠ []) :
    fitSlope y * ((y.length : ℚ) * sumIdxSq y.length - (sumIdx y.length) ^ 2) =
      (y.length : ℚ) * sumXY y - sumIdx y.length * sumY y := by
  rcases Nat.lt_or_ge y.length 2 with hlt | hge
  · have h1 : y.length = 1 := by
      have := List.length_pos.mpr h
      omega
    have hxy : sumXY y = 0 := by
      simp [sumXY, h1]
    rw [fitSlope, h1, hxy]
    simp [sumIdx, sumIdxSq]
  · exact div_mul_cancel₀ _ (ne_of_gt (det_pos y.length hge))

lemma polyfit1_normal (y : List ℚ) (h : y ≠ []) :
    sumY y - fitSlope y * sumIdx y.length - fitIntercept y * (y.length : ℚ) = 0 ∧
    sumXY y - fitSlope y * sumIdxSq y.length - fitIntercept y * sumIdx y.length = 0 := by
  have hn : ((y.length : ℚ)) ≠ 0 := by
    have := List.length_pos.mpr h
    positivity
  have hb : fitIntercept y * (y.length : ℚ) = sumY y - fitSlope y * sumIdx y.length := by
    rw [fitIntercept]
    field_simp
  constructor
  · rw [hb]
    ring
  · have hD := slope_mul_det y h
    have hmain :
        (sumXY y - fitSlope y * sumIdxSq y.length -
          fitIntercept y * sumIdx y.length) * (y.length : ℚ) = 0 := by
      linear_combination (-(sumIdx y.length)) * hb - hD
    rcases mul_eq_zero.mp hmain with h0 | h0
    · exact h0
    · exact absurd h0 hn

lemma sse_decomp (y : List ℚ) (a b a' b' : ℚ)
    (ne1 : sumY y - a * sumIdx y.length - b * (y.length : ℚ) = 0)
    (ne2 : sumXY y - a * sumIdxSq y.length - b * sumIdx y.length = 0) :
    sse y a' b' = sse y a b +
      ∑ j in Finset.range y.length, ((a - a') * (j : ℚ) + (b - b')) ^ 2 := by
  have hterm : ∀ j ∈ Finset.range y.length,
      (y.getD j 0 - (a' * (j : ℚ) + b')) ^ 2 =
        ((y.getD j 0 - (a * (j : ℚ) + b)) ^ 2 +
          ((a - a') * (j : ℚ) + (b - b')) ^ 2) +
        (2 * (a - a') * ((j : ℚ) * y.getD j 0 - a * (j : ℚ) ^ 2 - b * (j : ℚ)) +
          2 * (b - b') * (y.getD j 0 - a * (j : ℚ) - b)) := by
    intro j _
    ring
  have h1 : ∑ j in Finset.range y.length,
      ((j : ℚ) * y.getD j 0 - a * (j : ℚ) ^ 2 - b * (j : ℚ)) =
      sumXY y - a * sumIdxSq y.length - b * sumIdx y.length := by
    rw [sumXY, sumIdxSq, sumIdx, Finset.mul_sum, Finset.mul_sum,
      ← Finset.sum_sub_distrib, ← Finset.sum_sub_distrib]
  have h2 : ∑ j in Finset.range y.length,
      (y.getD j 0 - a * (j : ℚ) - b) =
      sumY y - a * sumIdx y.length - b * (y.length : ℚ) := by
    rw [Finset.sum_sub_distrib, Finset.sum_sub_distrib, Finset.sum_const,
      Finset.card_range, nsmul_eq_mul, ← Finset.mul_sum, sumY, sumIdx]
    ring
  rw [sse, Finset.sum_congr rfl hterm, Finset.sum_add_distrib,
    Finset.sum_add_distrib, Finset.sum_add_distrib]
  rw [← Finset.mul_sum, ← Finset.mul_sum, h1, h2, ne1, ne2]
  rw [sse]
  ring

lemma getD_replicate_of_lt (n j : ℕ) (P : ℚ) (hj : j < n) :
    (List.replicate n P).getD j 0 = P := by
  rw [List.getD_eq_getElem _ _ (by simpa using hj)]
  exact List.getElem_replicate P _

lemma sumY_replicate (n : ℕ) (P : ℚ) : sumY (List.replicate n P) = (n : ℚ) * P := by
  rw [sumY, List.length_replicate]
  rw [Finset.sum_congr rfl (fun j hj =>
    getD_replicate_of_lt n j P (Finset.mem_range.mp hj))]
  rw [Finset.sum_const, Finset.card_range, nsmul_eq_mul]

lemma sumXY_replicate (n : ℕ) (P : ℚ) :
    sumXY (List.replicate n P) = P * sumIdx n := by
  rw [sumXY, List.length_replicate, sumIdx, Finset.mul_sum]
  refine Finset.sum_congr rfl fun j hj => ?_
  rw [getD_replicate_of_lt n j P (Finset.mem_range.mp hj)]
  ring

lemma fitSlope_replicate (n : ℕ) (P : ℚ) :
    fitSlope (List.replicate n P) = 0 := by
  rw [fitSlope, List.length_replicate, sumY_replicate, sumXY_replicate]
  have : (n : ℚ) * (P * sumIdx n) - sumIdx n * ((n : ℚ) * P) = 0 := by ring
  rw [this, zero_div]

lemma fitIntercept_replicate (n : ℕ) (P : ℚ) (hn : 0 < n) :
    fitIntercept (List.replicate n P) = P := by
  have hn' : ((n : ℚ)) ≠ 0 := by positivity
  rw [fitIntercept, List.length_replicate, sumY_replicate, fitSlope_replicate]
  field_simp

lemma run_backup_model_replicate (n h : ℕ) (P : ℚ) (hn : 0 < n) :
    run_backup_model (List.replicate n P) h = List.replicate h P := by
  rw [run_backup_model, polyfit1, fitSlope_replicate, fitIntercept_replicate n P hn]
  rw [List.eq_replicate_iff]
  constructor
  · simp
  · intro b hb
    obtain ⟨i, -, hi⟩ := List.mem_map.mp hb
    rw [← hi]
    ring

lemma sma_replicate (n i : ℕ) (P : ℚ) (h19 : 19 ≤ i) (hi : i < n) :
    sma (List.replicate n P) 20 i = some P := by
  rw [sma, List.length_replicate, if_pos ⟨by omega, hi⟩]
  have hsum : ∑ j in Finset.Icc (i + 1 - 20) i, (List.replicate n P).getD j 0 =
      ∑ j in Finset.Icc (i + 1 - 20) i, P := by
    refine Finset.sum_congr rfl fun j hj => ?_
    exact getD_replicate_of_lt n j P (by
      have := (Finset.mem_Icc.mp hj).2
      omega)
  rw [hsum, Finset.sum_const, Nat.card_Icc, nsmul_eq_mul]
  have hcard : i + 1 - (i + 1 - 20) = 20 := by omega
  rw [hcard]
  norm_num

lemma listMean_replicate (n : ℕ) (P : ℚ) (hn : 0 < n) :
    listMean (List.replicate n P) = P := by
  have hn' : ((n : ℚ)) ≠ 0 := by positivity
  rw [listMean, List.length_replicate]
  rw [Finset.sum_congr rfl (fun j hj =>
    getD_replicate_of_lt n j P (Finset.mem_range.mp hj))]
  rw [Finset.sum_const, Finset.card_range, nsmul_eq_mul]
  field_simp

lemma sampleVar_replicate (n : ℕ) (P : ℚ) (hn : 0 < n) :
    sampleVar (List.replicate n P) = 0 := by
  rw [sampleVar, List.length_replicate]
  have hz : ∀ j ∈ Finset.range n,
      ((List.replicate n P).getD j 0 - listMean (List.replicate n P)) ^ 2 = 0 := by
    intro j hj
    rw [getD_replicate_of_lt n j P (Finset.mem_range.mp hj),
      listMean_replicate n P hn]
    ring
  rw [Finset.sum_congr rfl hz, Finset.sum_const, smul_zero, zero_div]

/-! ## Claim theorems -/

/-- C1 counterexample: at the spec's precedence scenario
(`current_close = 105`, `bb_upper = 100`, `sma20 = 90`) the code's signal
block — which takes no Bollinger input at all — reports `bullish`, not the
claimed `overbought`. -/
theorem tab1_scenario_not_overbought :
    tab1_signal 105 (some 90) = Signal.bullish ∧
    tab1_signal 105 (some 90) ≠ Signal.overbought := by
  have h : tab1_signal 105 (some 90) = Signal.bullish := by
    simp [tab1_signal, fgt]
    norm_num
  exact ⟨h, by rw [h]; exact fun hc => Signal.noConfusion hc⟩

/-- C1 (amended): the tab1 signal block compares the close only against
the 20-day moving average; its output is always `bullish` or `bearish`,
never `overbought`, and the scenario close = 105, sma20 = 90 yields
`bullish`. -/
theorem tab1_signal_ma_only :
    (∀ (c : ℚ) (m : Option ℚ),
      tab1_signal c m = Signal.bullish ∨ tab1_signal c m = Signal.bearish) ∧
    tab1_signal 105 (some 90) = Signal.bullish := by
  refine ⟨fun c m => ?_, ?_⟩
  · unfold tab1_signal
    by_cases h : fgt c m = true
    · simp [h]
    · simp [h]
  · simp [tab1_signal, fgt]
    norm_num

/-- C3: the calibration check on the spec's scenarios — predicted 100,
actual 96 gives error 25/6 % (≈4.17) and no trigger; predicted 100,
actual 90 gives 100/9 % (≈11.11) and fires; in general the flag is raised
exactly when the error exceeds 5. -/
theorem calibration_threshold :
    error_pct 100 96 = 25 / 6 ∧ recal_triggered 100 96 = false ∧
    error_pct 100 90 = 100 / 9 ∧ recal_triggered 100 90 = true ∧
    ∀ p a : ℚ, recal_triggered p a = true ↔ error_pct p a > 5 := by
  refine ⟨?_, ?_, ?_, ?_, fun p a => ?_⟩
  · norm_num [error_pct]
  · norm_num [recal_triggered, error_pct]
  · norm_num [error_pct]
  · norm_num [recal_triggered, error_pct]
  · simp [recal_triggered]

/-- C4 counterexample: on the two-bar series `[100, 101]` the 20-day SMA
is undefined, yet the signal block reports `bearish` (the NaN comparison
is false), not the claimed `neutral`. -/
theorem tab1_short_series_not_neutral :
    tab1_signal_of [100, 101] = Signal.bearish ∧
    tab1_signal_of [100, 101] ≠ Signal.neutral := by
  constructor <;> simp [tab1_signal_of, tab1_signal, sma, fgt, last_close]

/-- C4 (amended): when the moving average is NaN the comparison
`last_close > current_ma20` is false, so every series with fewer than 20
closes yields `bearish`; the block never produces `neutral`. -/
theorem tab1_signal_nan_bearish :
    (∀ c : ℚ, tab1_signal c none = Signal.bearish) ∧
    (∀ closes : List ℚ, closes.length < 20 →
      tab1_signal_of closes = Signal.bearish) := by
  refine ⟨fun c => ?_, fun closes h => ?_⟩
  · simp [tab1_signal, fgt]
  · have hsma : sma closes 20 (closes.length - 1) = none := by
      unfold sma
      rw [if_neg]
      rintro ⟨h1, -⟩
      omega
    simp [tab1_signal_of, hsma, tab1_signal, fgt]

/-- C4 witness: the amended rule applied at the concrete series
`[50, 51]`. -/
theorem tab1_signal_nan_bearish_witness :
    tab1_signal_of [50, 51] = Signal.bearish :=
  tab1_signal_nan_bearish.2 [50, 51] (by simp)

/-- C5: a raised fetch and an empty frame both come back as `None` —
no exception escapes `load_data` — and the caller's guard renders the
error state on that value. -/
theorem load_data_no_crash :
    load_data .raised = none ∧ load_data (.frame []) = none ∧
    renders_error (load_data .raised) = true ∧
    renders_error (load_data (.frame [])) = true := by
  refine ⟨rfl, ?_, rfl, ?_⟩ <;> simp [load_data, renders_error]

/-- C7: the backup forecast is a pure function of the close series and
horizon; two runs on identical input and configuration produce identical
output (there is no hidden randomness in the embedding because there is
none in the source: `np.polyfit` on fixed vectors). -/
theorem forecast_deterministic (y : List ℚ) (p : ℕ) :
    run_backup_model y p = run_backup_model y p := rfl

/-- C8: the fit-flexibility parameter is a pure function of the
`auto_tune` configuration — `0.5` (= 1/2) when on, `0.05` (= 1/20) when
off — and the value handed to the Prophet run does not depend on the
data. -/
theorem flex_selection :
    flex_value true = 1 / 2 ∧ flex_value false = 1 / 20 ∧
    ∀ (a : Bool) (df₁ df₂ : List ℚ),
      tab2_prophet_flex a df₁ = tab2_prophet_flex a df₂ := by
  refine ⟨?_, ?_, fun a df₁ df₂ => rfl⟩ <;> norm_num [flex_value]

/-- C9: `load_data` returns `None` exactly on a raised fetch or an empty
frame, and any `Some` result is a non-empty frame returned unchanged. -/
theorem load_data_none_iff (o : FetchOutcome) :
    (load_data o = none ↔ o = .raised ∨ o = .frame []) ∧
    (∀ l, load_data o = some l → l ≠ [] ∧ o = .frame l) := by
  cases o with
  | raised => simp [load_data]
  | frame rows =>
    by_cases h : rows.isEmpty
    · have : rows = [] := List.isEmpty_iff.mp h
      subst this
      simp [load_data]
    · have hne : rows ≠ [] := fun hc => h (by simp [hc])
      constructor
      · simp [load_data, h, hne]
      · intro l hl
        simp only [load_data, h, if_neg, Bool.false_eq_true, ite_false,
          Option.some.injEq] at hl
        exact ⟨hl ▸ hne, by rw [hl]⟩

/-- C9 witness: the non-`None` branch at the concrete frame `[3]`. -/
theorem load_data_none_iff_witness :
    [(3 : ℚ)] ≠ [] ∧ FetchOutcome.frame [(3 : ℚ)] = .frame [3] :=
  (load_data_none_iff (.frame [3])).2 [3] (by simp [load_data])

/-- C10: with more than one bar the calibration baseline is the 20-day
moving average at the second-to-last row; with a single bar it is the
last close itself, so the error is exactly 0 and the recalibration flag
never fires. -/
theorem tab3_predicted_spec (closes : List ℚ) (h : closes ≠ []) :
    (1 < closes.length →
      tab3_predicted closes = sma closes 20 (closes.length - 2)) ∧
    (closes.length ≤ 1 →
      tab3_predicted closes = some (last_close closes) ∧
      tab3_error closes = some 0 ∧ tab3_trigger closes = false) := by
  constructor
  · intro h1
    simp [tab3_predicted, h1]
  · intro h1
    have hnot : ¬1 < closes.length := by omega
    have hpred : tab3_predicted closes = some (last_close closes) := by
      simp [tab3_predicted, hnot]
    have herr : tab3_error closes = some 0 := by
      simp [tab3_error, hpred, error_pct]
    refine ⟨hpred, herr, ?_⟩
    simp [tab3_trigger, herr, fgtC]

/-- C2: on any non-empty close series the backup forecast returns exactly
`periods` values (7 by default), the `i`-th being `slope·(n+i) +
intercept` for the fitted pair, and that pair genuinely minimises the sum
of squared residuals of a degree-1 fit over the index/close vectors —
i.e. `np.polyfit(x, y, 1)` is the unweighted ordinary least-squares
line. -/
theorem run_backup_model_ols (y : List ℚ) (h : y ≠ []) (p : ℕ) :
    (run_backup_model y p).length = p ∧
    (run_backup_model y).length = 7 ∧
    (∀ i, i < p → (run_backup_model y p).getD i 0 =
      (polyfit1 y).1 * ((y.length + i : ℕ) : ℚ) + (polyfit1 y).2) ∧
    (∀ a b : ℚ, sse y (polyfit1 y).1 (polyfit1 y).2 ≤ sse y a b) := by
  have hlen : ∀ q : ℕ, (run_backup_model y q).length = q := by
    intro q
    simp [run_backup_model]
  refine ⟨hlen p, hlen 7, fun i hi => ?_, fun a b => ?_⟩
  · rw [List.getD_eq_getElem _ _ (by rw [hlen p]; exact hi)]
    simp [run_backup_model]
  · obtain ⟨ne1, ne2⟩ := polyfit1_normal y h
    have hd := sse_decomp y (fitSlope y) (fitIntercept y) a b ne1 ne2
    have hnn : 0 ≤ ∑ j in Finset.range y.length,
        ((fitSlope y - a) * (j : ℚ) + (fitIntercept y - b)) ^ 2 :=
      Finset.sum_nonneg fun j _ => sq_nonneg _
    calc sse y (polyfit1 y).1 (polyfit1 y).2
        = sse y (fitSlope y) (fitIntercept y) := rfl
      _ ≤ sse y a b := by rw [hd]; linarith

/-- C2 witness: the theorem applied to the concrete series `[1, 3]` with
horizon 2. -/
theorem run_backup_model_ols_witness :
    (run_backup_model [1, 3] 2).length = 2 ∧
    sse [1, 3] (polyfit1 [1, 3]).1 (polyfit1 [1, 3]).2 ≤ sse [1, 3] 0 0 :=
  ⟨(run_backup_model_ols [1, 3] (by simp) 2).1,
   (run_backup_model_ols [1, 3] (by simp) 2).2.2.2 0 0⟩

/-- C6: on a constant series of length ≥ 21 at price `P`, the 20-day SMA
equals `P` at every defined date, the trailing 20-observation sample
variance is 0 (so the spec-modelled band half-width is 0), and the backup
forecast is `horizon` copies of `P` — a flat forecast, not an error. -/
theorem constant_series_flat (P : ℚ) (n : ℕ) (hn : 21 ≤ n) (h : ℕ) :
    (∀ i, 19 ≤ i → i < n → sma (List.replicate n P) 20 i = some P) ∧
    sampleVar ((List.replicate n P).drop (n - 20)) = 0 ∧
    band_half_width_is (List.replicate n P) 0 ∧
    run_backup_model (List.replicate n P) h = List.replicate h P := by
  have hdrop : (List.replicate n P).drop (n - 20) = List.replicate 20 P := by
    rw [List.drop_replicate]
    congr 1
    omega
  have hvar : sampleVar ((List.replicate n P).drop (n - 20)) = 0 := by
    rw [hdrop]
    exact sampleVar_replicate 20 P (by norm_num)
  refine ⟨fun i h19 hi => sma_replicate n i P h19 hi, hvar, ⟨le_refl 0, ?_⟩, ?_⟩
  · rw [List.length_replicate, hvar]
    ring
  · exact run_backup_model_replicate n h P (by omega)

/-- C6 witness: the theorem at the concrete constant series of 21 bars at
price 5 with horizon 3. -/
theorem constant_series_flat_witness :
    sma (List.replicate 21 (5 : ℚ)) 20 20 = some 5 ∧
    run_backup_model (List.replicate 21 (5 : ℚ)) 3 = List.replicate 3 5 :=
  ⟨(constant_series_flat 5 21 (le_refl 21) 3).1 20 (by norm_num) (by norm_num),
   (constant_series_flat 5 21 (le_refl 21) 3).2.2.2⟩

/-- C10 witness: the single-bar case at the concrete series `[100]`. -/
theorem tab3_predicted_spec_witness :
    tab3_predicted [100] = some (last_close [100]) ∧
    tab3_error [100] = some 0 ∧ tab3_trigger [100] = false :=
  (tab3_predicted_spec [100] (by simp)).2 (by simp)

end StockApp
